import Mathlib

/-!
# JDate: Gregorian / Julian Day Number / Jalaali conversions

A shallow embedding of `src/converter.js` (class `Converter`) and of the two
static helpers `isLeapYear` and `daysInMonth` of `src/jdate.js`.

Conventions of the embedding.

* JavaScript numbers that the converter handles are integers far below 2^53,
  so they are `Int`.
* A `throw` is the `Except.error` result.
* The body of a class is strict code.  Reading a name that no scope binds
  throws a `ReferenceError`, and so does assigning to one.
* `d2g` READS two names it never declares and never writes, `j` and `gm`
  (its own values are called `julian` and `gregorianMonth`).  What such a read
  yields is decided by the enclosing scope, which is a parameter of the
  embedding (`Scope`).
* `jalCal` ASSIGNS to names it never declares (`i`, `jm`, `jump`, `n`, `leapG`,
  `march`, `leap`; their declaration is the comment of line 26), and `j2d` and
  `d2j` CALL `jalCal`, `g2d` and `d2g` by their bare names, although these are
  static methods of `Converter`, which are properties of the class and not
  bindings of its scope.  Whether the enclosing scope binds these names is the
  second parameter of the embedding (`Bindings`).  The module declares and
  imports none of them: what it does is what the definitions do at
  `Scope.unbound` and `Bindings.unbound`.
-/

set_option linter.unusedVariables false

namespace JDate

/-! ## Integer helpers (`./helpers`, not part of the sources at hand) -/

/-- Modelled from the spec: `div` of the module `./helpers`, whose file is
missing; floor division, rounding toward negative infinity.  Every divisor
in the converter is a positive literal. -/
def div (a b : Int) : Int := Int.fdiv a b

/-- Modelled from the spec: `mod` of the module `./helpers`, whose file is
missing; floor modulo, `a - b * div(a, b)`. -/
def mod (a b : Int) : Int := a - b * div a b

/-! ## Results and errors -/

deriving instance DecidableEq for Except

/-- The two ways a call can throw. -/
inductive Err where
  /-- `throw new Error("Invalid Jalaali year ..")` of `jalCal`. -/
  | invalidJalaaliYear (jy : Int)
  /-- Using an identifier that no scope binds: reading it, calling it, or
  assigning to it in strict code. -/
  | referenceError (name : String)
  deriving DecidableEq, Repr

/-- Result object of `jalCal`. -/
structure JalCalResult where
  leap : Int
  gy : Int
  march : Int
  deriving DecidableEq, Repr

/-- Result object of `d2g`. -/
structure GDate where
  gy : Int
  gm : Int
  gd : Int
  deriving DecidableEq, Repr

/-- Result object of `d2j`. -/
structure JDateTriple where
  jy : Int
  jm : Int
  jd : Int
  deriving DecidableEq, Repr

/-- What the enclosing scope binds the identifiers `j` and `gm` to when `d2g`
reads them: `none` if the identifier is unbound, `some v` if it is bound to
the integer `v`. -/
structure Scope where
  j : Option Int
  gm : Option Int
  deriving DecidableEq, Repr

/-- The scope of the module as it stands: neither `j` nor `gm` is declared
anywhere in `converter.js`. -/
def Scope.unbound : Scope := ⟨none, none⟩

/-- Whether the enclosing scope binds the other names that `converter.js` uses
without declaring them.

* `vars`: the names `jalCal` assigns to, `i`, `jm`, `jump`, `n`, `leapG`, `march`
  and `leap`.  Where it is `false`, the first assignment, `i = 1` in the head of
  the loop (line 31), throws.
* `funs`: the names `jalCal`, `g2d` and `d2g` that `j2d` (lines 74, 75) and `d2j`
  (lines 88 to 91) call without `Converter.` in front.  Where it is `true`, the
  scope binds them to the static methods of the same name; where it is `false`,
  the first of these calls throws. -/
structure Bindings where
  vars : Bool
  funs : Bool
  deriving DecidableEq, Repr

/-- The module as it stands: it declares and imports none of these names. -/
def Bindings.unbound : Bindings := ⟨false, false⟩

/-! ## `Converter.jalCal` -/

/-- Jalaali years starting the 33-year rule. -/
def breaks : List Int :=
  [-61, 9, 38, 199, 426, 686, 756, 818, 1111, 1181, 1210,
   1635, 2060, 2097, 2192, 2262, 2324, 2394, 2456, 3178]

/-- State of the bracket scan at loop exit. -/
structure ScanState where
  leapJ : Int
  jp : Int
  jump : Int
  deriving DecidableEq, Repr

/-- The `for (i = 1; i < bl; i += 1)` loop of `jalCal`, run over the
break-points that are still ahead (`breaks[i], breaks[i+1], ..`). -/
def scan (jy : Int) : List Int → ScanState → ScanState
  | [], s => s
  | jm :: rest, s =>
    let jump := jm - s.jp
    if jy < jm then { s with jump := jump }
    else scan jy rest
      { leapJ := s.leapJ + div jump 33 * 8 + div (mod jump 33) 4, jp := jm, jump := jump }

/-- Lines 38 to 62 of `jalCal`: everything after the loop, from the state the
loop exits with. -/
def afterScan (jy gy : Int) (s : ScanState) : JalCalResult :=
  let jump := s.jump
  let n := jy - s.jp
  let leapJ := s.leapJ + div n 33 * 8 + div (mod n 33 + 3) 4
  let leapJ := if mod jump 33 = 4 ∧ jump - n = 4 then leapJ + 1 else leapJ
  let leapG := div gy 4 - div ((div gy 100 + 1) * 3) 4 - 150
  let march := 20 + leapJ - leapG
  let n := if jump - n < 6 then n - jump + div (jump + 4) 33 * 33 else n
  let leap := mod (mod (n + 1) 33 - 1) 4
  let leap := if leap = -1 then 4 else leap
  { leap := leap, gy := gy, march := march }

/-- Lines 52 and 53 of `jalCal`: the value assigned to `leap` before the test
`leap === -1`, from the state the loop exits with. -/
def leapBeforeClamp (jy : Int) (s : ScanState) : Int :=
  let jump := s.jump
  let n := jy - s.jp
  let n := if jump - n < 6 then n - jump + div (jump + 4) 33 * 33 else n
  mod (mod (n + 1) 33 - 1) 4

/-- Embedding of `Converter.jalCal`.  The range test (line 28) comes first.  The
loop that follows starts by assigning to `i`, which throws unless the scope
binds the names `jalCal` assigns to.  Where it does, the loop body runs at least
once (there are 19 break-points after the first), so the value `jump` starts
with is never read. -/
def jalCal (bn : Bindings) (jy : Int) : Except Err JalCalResult :=
  let bl := breaks.length
  let gy := jy + 621
  let leapJ : Int := -14
  let jp := breaks.getD 0 0
  if jy < jp ∨ jy ≥ breaks.getD (bl - 1) 0 then .error (.invalidJalaaliYear jy)
  else if bn.vars then
    .ok (afterScan jy gy (scan jy breaks.tail { leapJ := leapJ, jp := jp, jump := 0 }))
  else .error (.referenceError "i")

/-! ## `Converter.g2d`, `Converter.d2g` -/

/-- Embedding of `Converter.g2d`. -/
def g2d (gy gm gd : Int) : Int :=
  let d := div ((gy + div (gm - 8) 6 + 100100) * 1461) 4
      + div (153 * mod (gm + 9) 12 + 2) 5
      + gd - 34840408
  let d := d - div (div (gy + 100100 + div (gm - 8) 6) 100 * 3) 4 + 752
  d

/-- Embedding of `Converter.d2g`.  The value `julian` is computed and never
used; the following lines read `j` and `gm` from the enclosing scope. -/
def d2g (sc : Scope) (jdn : Int) : Except Err GDate :=
  let julian := (4 * jdn + 139361631) +
    div (div (4 * jdn + 183187720) 146097 * 3) 4 * 4 - 3908
  match sc.j with
  | none => .error (.referenceError "j")
  | some j =>
    let i := div (mod j 1461) 4 * 5 + 308
    let gregorianDay := div (mod i 153) 5 + 1
    let gregorianMonth := mod (div i 153) 12 + 1
    match sc.gm with
    | none => .error (.referenceError "gm")
    | some gm =>
      let gregorianYear := div j 1461 - 100100 + div (8 - gm) 6
      .ok { gy := gregorianYear, gm := gregorianMonth, gd := gregorianDay }

/-! ## `Converter.j2d`, `Converter.d2j` -/

/-- Embedding of `Converter.j2d`.  Its first step is the call of the bare name
`jalCal` (line 74), before any test of the year. -/
def j2d (bn : Bindings) (jy jm jd : Int) : Except Err Int :=
  if bn.funs then
    match jalCal bn jy with
    | .error e => .error e
    | .ok r => .ok (g2d r.gy 3 r.march + (jm - 1) * 31 - div jm 7 * (jm - 7) + jd - 1)
  else .error (.referenceError "jalCal")

/-- Embedding of `Converter.d2j`.  Its first step is the call of the bare name
`d2g` (line 88), before `j` or `gm` is read. -/
def d2j (bn : Bindings) (sc : Scope) (jdn : Int) : Except Err JDateTriple :=
  if bn.funs then
    match d2g sc jdn with
    | .error e => .error e
    | .ok g =>
      let gy := g.gy
      let jy := gy - 621
      match jalCal bn jy with
      | .error e => .error e
      | .ok r =>
        let jdn1f := g2d gy 3 r.march
        let k := jdn - jdn1f
        if k ≥ 0 then
          if k ≤ 185 then
            .ok { jy := jy, jm := 1 + div k 31, jd := mod k 31 + 1 }
          else
            let k := k - 186
            .ok { jy := jy, jm := 7 + div k 30, jd := mod k 30 + 1 }
        else
          let jy := jy - 1
          let k := k + 179
          let k := if r.leap = 1 then k + 1 else k
          .ok { jy := jy, jm := 7 + div k 30, jd := mod k 30 + 1 }
  else .error (.referenceError "d2g")

/-! ## `JDate.isLeapYear`, `JDate.daysInMonth` -/

/-- Embedding of `JDate.isLeapYear`, which calls `Converter.jalCal` by its full
name: `jdate.js` imports `Converter`. -/
def isLeapYear (bn : Bindings) (year : Int) : Except Err Bool :=
  match jalCal bn year with
  | .error e => .error e
  | .ok r => .ok (decide (r.leap = 0))

/-- Embedding of `JDate.daysInMonth`; `Math.floor(month / 12)` is the floor of
the real quotient. -/
def daysInMonth (bn : Bindings) (year month : Int) : Except Err Int :=
  let calcedYear := year - Int.fdiv month 12
  let calcedMonth := month - Int.fdiv month 12 * 12
  let ym : Int × Int :=
    if calcedMonth < 0 then (calcedYear - 1, calcedMonth + 12)
    else if calcedMonth = 0 then (calcedYear, 12)
    else (calcedYear, calcedMonth)
  let calcedYear := ym.1
  let calcedMonth := ym.2
  if calcedMonth ≤ 6 then .ok 31
  else if calcedMonth ≤ 11 then .ok 30
  else
    match isLeapYear bn calcedYear with
    | .error e => .error e
    | .ok true => .ok 30
    | .ok false => .ok 29

/-! ## Proof machinery: the leap field on natural numbers

Years are counted from -61, so that offset `o` stands for the year `o - 61`.
`leapNat` computes, with natural-number arithmetic only, the `leap` field that
lines 31 to 62 of `jalCal` compute; `jalCal_leapNat` below proves that the two
agree wherever `jalCal` returns. -/

/-- The break-points shifted by 61. -/
def breaksNat : List Nat :=
  [0, 70, 99, 260, 487, 747, 817, 879, 1172, 1242, 1271,
   1696, 2121, 2158, 2253, 2323, 2385, 2455, 2517, 3239]

/-- Mirror of `scan` on offsets, keeping the pair `(jp + 61, jump)`. -/
def scanNat (o : Nat) : List Nat → Nat × Nat → Nat × Nat
  | [], s => s
  | jm :: rest, s => if o < jm then (s.1, jm - s.1) else scanNat o rest (jm, jm - s.1)

/-- The `leap` field that lines 31 to 62 of `jalCal` compute for the year `o - 61`,
for `o < 3239`. -/
def leapNat (o : Nat) : Nat :=
  let s := scanNat o breaksNat.tail (0, 0)
  let n := o - s.1
  let m := if s.2 < n + 6 then (n + 1 + 32 * s.2) % 33 else (n + 1) % 33
  (m + 3) % 4

/-- How the `leap` field may move from one year (`a`) to the next (`b`) and the
one after (`c`): it counts 0, 1, 2, 3 and returns to 0, except that 3 may be
repeated once. -/
def transOK (a b c : Nat) : Bool :=
  (a == 0 && b == 1) || (a == 1 && b == 2) || (a == 2 && b == 3) || (a == 3 && b == 0) ||
    (a == 3 && b == 3 && c == 0)

/-- Checks `transOK` at the offsets `n - 1, n - 2, .., 0` of a sequence `f`,
reading each value of `f` once; `b` and `c` are the values at `n` and `n + 1`. -/
def runTrans (f : Nat → Nat) : Nat → Nat → Nat → Bool
  | 0, _, _ => true
  | n + 1, b, c =>
    match f n with
    | 0 => transOK 0 b c && runTrans f n 0 b
    | 1 => transOK 1 b c && runTrans f n 1 b
    | 2 => transOK 2 b c && runTrans f n 2 b
    | 3 => transOK 3 b c && runTrans f n 3 b
    | _ => false

/-! ## Helper lemmas -/

theorem div_eq_ediv (a : Int) {b : Int} (hb : 0 ≤ b) : div a b = a / b := by
  unfold div; exact Int.fdiv_eq_ediv a hb

theorem mod_eq_emod (a : Int) {b : Int} (hb : 0 ≤ b) : mod a b = a % b := by
  unfold mod; rw [div_eq_ediv a hb, Int.emod_def]

/-- The day number never reaches the result of `d2g`. -/
theorem d2g_const (sc : Scope) (x y : Int) : d2g sc x = d2g sc y := rfl

/-- With neither `j` nor `gm` bound, `d2g` throws at every day number. -/
theorem d2g_unbound (jdn : Int) : d2g Scope.unbound jdn = .error (.referenceError "j") := rfl

/-- Out of the supported range `jalCal` throws the invalid-year error, in every scope. -/
theorem jalCal_of_not_range (bn : Bindings) (jy : Int) (h : jy < -61 ∨ jy ≥ 3178) :
    jalCal bn jy = .error (.invalidJalaaliYear jy) := by
  simp [jalCal, breaks, h]

/-- In the supported range, where the scope binds the names `jalCal` assigns to,
`jalCal` returns what its loop and the lines after it compute. -/
theorem jalCal_of_range (bn : Bindings) (hv : bn.vars = true) (jy : Int)
    (h1 : -61 ≤ jy) (h2 : jy < 3178) :
    jalCal bn jy = .ok (afterScan jy (jy + 621)
      (scan jy breaks.tail { leapJ := -14, jp := -61, jump := 0 })) := by
  have h3 : ¬ (jy < -61 ∨ jy ≥ 3178) := by omega
  simp [jalCal, breaks, h3, hv]

/-- In the supported range, where the scope does not bind the names `jalCal`
assigns to, `jalCal` throws at the head of its loop. -/
theorem jalCal_of_range_not_bound (bn : Bindings) (hv : bn.vars = false) (jy : Int)
    (h1 : -61 ≤ jy) (h2 : jy < 3178) :
    jalCal bn jy = .error (.referenceError "i") := by
  have h3 : ¬ (jy < -61 ∨ jy ≥ 3178) := by omega
  simp [jalCal, breaks, h3, hv]

/-- When `jalCal` returns, the scope binds the names it assigns to and the year
is in the supported range. -/
theorem jalCal_ok (bn : Bindings) (jy : Int) (r : JalCalResult) (h : jalCal bn jy = .ok r) :
    bn.vars = true ∧ -61 ≤ jy ∧ jy < 3178 := by
  have hr : -61 ≤ jy ∧ jy < 3178 := by
    by_contra hn
    rw [jalCal_of_not_range bn jy (by omega)] at h
    cases h
  refine ⟨?_, hr⟩
  cases hv : bn.vars with
  | true => rfl
  | false =>
    rw [jalCal_of_range_not_bound bn hv jy hr.1 hr.2] at h
    cases h

/-- The module as it stands: `jalCal` returns for no year. -/
theorem jalCal_unbound_ne_ok (jy : Int) (r : JalCalResult) :
    jalCal Bindings.unbound jy ≠ .ok r := by
  intro h
  have := (jalCal_ok _ _ _ h).1
  cases this

/-- The module as it stands: `j2d` throws at its first step, for every date. -/
theorem j2d_unbound (jy jm jd : Int) :
    j2d Bindings.unbound jy jm jd = .error (.referenceError "jalCal") := rfl

/-- The module as it stands: `d2j` throws at its first step, for every day number
and whatever `j` and `gm` are bound to. -/
theorem d2j_unbound (sc : Scope) (jdn : Int) :
    d2j Bindings.unbound sc jdn = .error (.referenceError "d2g") := rfl

theorem afterScan_leap_range (jy gy : Int) (s : ScanState) :
    0 ≤ (afterScan jy gy s).leap ∧ (afterScan jy gy s).leap ≤ 3 := by
  simp only [afterScan, mod_eq_emod _ (show (0:Int) ≤ 4 by decide)]
  split <;> omega

theorem breaks_eq : breaks.tail = breaksNat.tail.map (fun x => (x : Int) - 61) := by decide

theorem scanNat_le (o : Nat) (l : List Nat) (s : Nat × Nat) (hp : s.1 ≤ o) :
    (scanNat o l s).1 ≤ o := by
  induction l generalizing s with
  | nil => exact hp
  | cons jm rest ih =>
    unfold scanNat
    split
    · exact hp
    · exact ih _ (by simp only; omega)

/-- On an ascending list, `scan` and `scanNat` exit with the same `jp` and `jump`. -/
theorem scan_scanNat (o : Nat) (l : List Nat) (p j : Nat) (lJ : Int) (hp : p ≤ o)
    (hs : (p :: l).Pairwise (· ≤ ·)) :
    (scan (o - 61) (l.map (fun x => (x : Int) - 61)) ⟨lJ, p - 61, j⟩).jp
        = ((scanNat o l (p, j)).1 : Int) - 61 ∧
    (scan (o - 61) (l.map (fun x => (x : Int) - 61)) ⟨lJ, p - 61, j⟩).jump
        = ((scanNat o l (p, j)).2 : Int) := by
  induction l generalizing p j lJ with
  | nil => exact ⟨rfl, rfl⟩
  | cons jm rest ih =>
    have hpj : p ≤ jm := (List.pairwise_cons.1 hs).1 jm (List.mem_cons_self _ _)
    have hs2 : (jm :: rest).Pairwise (· ≤ ·) := (List.pairwise_cons.1 hs).2
    simp only [List.map_cons, scan, scanNat]
    by_cases h : o < jm
    · have h2 : (o : Int) - 61 < (jm : Int) - 61 := by omega
      simp only [h, h2, if_true]
      constructor
      · trivial
      · omega
    · have h2 : ¬ ((o : Int) - 61 < (jm : Int) - 61) := by omega
      simp only [h, h2, if_false]
      have e : ((jm : Int) - 61 - ((p : Int) - 61)) = ((jm - p : Nat) : Int) := by omega
      rw [e]
      exact ih jm (jm - p) _ (by omega) hs2

theorem afterScan_leap_eq (o p j : Nat) (lJ gy : Int) (hp : p ≤ o) :
    (afterScan (o - 61) gy ⟨lJ, p - 61, j⟩).leap =
      (((if j < (o - p) + 6 then (o - p + 1 + 32 * j) % 33 else (o - p + 1) % 33) + 3) % 4 : Nat) := by
  simp only [afterScan, mod_eq_emod _ (show (0:Int) ≤ 4 by decide),
    mod_eq_emod _ (show (0:Int) ≤ 33 by decide), div_eq_ediv _ (show (0:Int) ≤ 33 by decide)]
  split_ifs <;> omega

/-- For a year of the supported range, where the scope binds the names `jalCal`
assigns to, `jalCal` returns the `leap` field that `leapNat` computes. -/
theorem jalCal_leapNat (bn : Bindings) (hv : bn.vars = true) (o : Nat) (ho : o < 3239) :
    ∃ r, jalCal bn (o - 61) = .ok r ∧ r.leap = leapNat o := by
  refine ⟨_, jalCal_of_range bn hv _ (by omega) (by omega), ?_⟩
  have hpw : ((0 : Nat) :: breaksNat.tail).Pairwise (· ≤ ·) := by decide
  have h := scan_scanNat o breaksNat.tail 0 0 (-14) (Nat.zero_le _) hpw
  have hle := scanNat_le o breaksNat.tail (0, 0) (Nat.zero_le _)
  rw [← breaks_eq] at h
  simp only [Nat.cast_zero, zero_sub] at h
  obtain ⟨h1, h2⟩ := h
  have hst : scan (o - 61) breaks.tail { leapJ := -14, jp := -61, jump := 0 } =
      ⟨(scan (o - 61) breaks.tail { leapJ := -14, jp := -61, jump := 0 }).leapJ,
        ((scanNat o breaksNat.tail (0, 0)).1 : Int) - 61, (scanNat o breaksNat.tail (0, 0)).2⟩ := by
    rw [← h1, ← h2]
  rw [hst, afterScan_leap_eq _ _ _ _ _ hle]
  rfl

/-- The `leap` field that `jalCal` returns, as a function of the year. -/
theorem jalCal_leap (bn : Bindings) (jy : Int) (r : JalCalResult)
    (hr : jalCal bn jy = .ok r) : r.leap = leapNat (jy + 61).toNat := by
  obtain ⟨hv, h1, h2⟩ := jalCal_ok bn jy r hr
  obtain ⟨r', hr', hl⟩ := jalCal_leapNat bn hv (jy + 61).toNat (by omega)
  have e : (((jy + 61).toNat : Nat) : Int) - 61 = jy := by omega
  rw [e, hr] at hr'
  cases hr'
  exact hl

theorem transOK_iff (a b c : Nat) :
    transOK a b c = true ↔
      (a = 0 ∧ b = 1) ∨ (a = 1 ∧ b = 2) ∨ (a = 2 ∧ b = 3) ∨ (a = 3 ∧ b = 0) ∨
        (a = 3 ∧ b = 3 ∧ c = 0) := by
  simp [transOK, or_assoc, and_assoc]

theorem runTrans_spec (f : Nat → Nat) (n b c : Nat) (h : runTrans f n b c = true)
    (hb : b = f n) (hc : c = f (n + 1)) (o : Nat) (ho : o < n) :
    transOK (f o) (f (o + 1)) (f (o + 2)) = true := by
  induction n generalizing b c with
  | zero => omega
  | succ n ih =>
    unfold runTrans at h
    split at h
    all_goals first
      | (exact absurd h (by decide))
      | (rename_i hv
         simp only [Bool.and_eq_true] at h
         by_cases e : o = n
         · subst e; rw [hv, ← hb, ← hc]; exact h.1
         · exact ih _ _ h.2 hv.symm hb (by omega))

set_option maxRecDepth 100000 in
theorem leap_steps_a :
    runTrans (fun k => leapNat (0 + k)) 405 (leapNat 405) (leapNat 406) = true := by
  decide!

set_option maxRecDepth 100000 in
theorem leap_steps_b :
    runTrans (fun k => leapNat (405 + k)) 405 (leapNat 810) (leapNat 811) = true := by
  decide!

set_option maxRecDepth 100000 in
theorem leap_steps_c :
    runTrans (fun k => leapNat (810 + k)) 405 (leapNat 1215) (leapNat 1216) = true := by
  decide!

set_option maxRecDepth 100000 in
theorem leap_steps_d :
    runTrans (fun k => leapNat (1215 + k)) 405 (leapNat 1620) (leapNat 1621) = true := by
  decide!

set_option maxRecDepth 100000 in
theorem leap_steps_e :
    runTrans (fun k => leapNat (1620 + k)) 405 (leapNat 2025) (leapNat 2026) = true := by
  decide!

set_option maxRecDepth 100000 in
theorem leap_steps_f :
    runTrans (fun k => leapNat (2025 + k)) 405 (leapNat 2430) (leapNat 2431) = true := by
  decide!

set_option maxRecDepth 100000 in
theorem leap_steps_g :
    runTrans (fun k => leapNat (2430 + k)) 405 (leapNat 2835) (leapNat 2836) = true := by
  decide!

set_option maxRecDepth 100000 in
theorem leap_steps_h :
    runTrans (fun k => leapNat (2835 + k)) 403 (leapNat 3238) (leapNat 3239) = true := by
  decide!

/-- From each year of the supported range but the last to the next, the `leap`
field moves as `transOK` allows. -/
theorem leap_steps (o : Nat) (ho : o < 3238) :
    transOK (leapNat o) (leapNat (o + 1)) (leapNat (o + 2)) = true := by
  have key : ∀ lo len : Nat,
      runTrans (fun k => leapNat (lo + k)) len (leapNat (lo + len)) (leapNat (lo + len + 1)) = true →
      lo ≤ o → o < lo + len → transOK (leapNat o) (leapNat (o + 1)) (leapNat (o + 2)) = true := by
    intro lo len h h1 h2
    have := runTrans_spec (fun k => leapNat (lo + k)) len _ _ h rfl rfl (o - lo) (by omega)
    have e : lo + (o - lo) = o := by omega
    simpa [← Nat.add_assoc, e] using this
  by_cases h0 : o < 405
  · exact key 0 405 leap_steps_a (by omega) (by omega)
  by_cases h1 : o < 810
  · exact key 405 405 leap_steps_b (by omega) (by omega)
  by_cases h2 : o < 1215
  · exact key 810 405 leap_steps_c (by omega) (by omega)
  by_cases h3 : o < 1620
  · exact key 1215 405 leap_steps_d (by omega) (by omega)
  by_cases h4 : o < 2025
  · exact key 1620 405 leap_steps_e (by omega) (by omega)
  by_cases h5 : o < 2430
  · exact key 2025 405 leap_steps_f (by omega) (by omega)
  by_cases h6 : o < 2835
  · exact key 2430 405 leap_steps_g (by omega) (by omega)
  exact key 2835 403 leap_steps_h (by omega) (by omega)

/-- Within the supported range, where the scope binds the names `jalCal` assigns
to, `jalCal(jy).leap == 0` says that `leapNat` is 0 at the offset of `jy`. -/
theorem leap_zero_iff (bn : Bindings) (hv : bn.vars = true) (jy : Int)
    (h1 : -61 ≤ jy) (h2 : jy < 3178) :
    (∃ r, jalCal bn jy = .ok r ∧ r.leap = 0) ↔ leapNat (jy + 61).toNat = 0 := by
  constructor
  · rintro ⟨r, hr, h0⟩
    have := jalCal_leap bn jy r hr
    omega
  · intro h
    refine ⟨_, jalCal_of_range bn hv jy h1 h2, ?_⟩
    have := jalCal_leap bn jy _ (jalCal_of_range bn hv jy h1 h2)
    omega

theorem isLeapYear_true_iff (bn : Bindings) (jy : Int) :
    isLeapYear bn jy = .ok true ↔ ∃ r, jalCal bn jy = .ok r ∧ r.leap = 0 := by
  unfold isLeapYear
  cases h : jalCal bn jy with
  | error e => simp
  | ok r => simp

/-- The module as it stands: `isLeapYear` throws inside `jalCal` for every year of
the supported range. -/
theorem isLeapYear_unbound_of_range (jy : Int) (h1 : -61 ≤ jy) (h2 : jy < 3178) :
    isLeapYear Bindings.unbound jy = .error (.referenceError "i") := by
  unfold isLeapYear
  rw [jalCal_of_range_not_bound _ rfl jy h1 h2]


/-- The `leap` field is `leapBeforeClamp`, with -1 replaced by 4. -/
theorem afterScan_leap_clamp (jy gy : Int) (s : ScanState) :
    (afterScan jy gy s).leap =
      if leapBeforeClamp jy s = -1 then 4 else leapBeforeClamp jy s := rfl

theorem fdiv_neg_neg (a b : Int) : Int.fdiv (-a) (-b) = Int.fdiv a b := by
  by_cases hb : b = 0
  · subst hb; simp
  · rcases a with (_ | m) | m <;> rcases b with (_ | n) | n <;> first | rfl | exact absurd rfl hb

/-- Floor division is the floor of the quotient of rationals. -/
theorem fdiv_eq_floor (a b : Int) (hb : b ≠ 0) : Int.fdiv a b = ⌊(a : ℚ) / (b : ℚ)⌋ := by
  rcases lt_or_gt_of_ne hb with h | h
  · have hb' : 0 ≤ -b := by omega
    obtain ⟨d, hd⟩ := Int.eq_ofNat_of_zero_le hb'
    have e : (a : ℚ) / (b : ℚ) = ((-a : Int) : ℚ) / ((d : Nat) : ℚ) := by
      have : (b : ℚ) = -(d : ℚ) := by
        have : b = -(d : Int) := by omega
        rw [this]; push_cast; ring
      rw [this]; push_cast; rw [div_neg, neg_div]
    rw [e, Rat.floor_intCast_div_natCast, ← hd, ← Int.fdiv_eq_ediv _ hb', fdiv_neg_neg]
  · have hb' : 0 ≤ b := by omega
    obtain ⟨d, hd⟩ := Int.eq_ofNat_of_zero_le hb'
    have e : (a : ℚ) / (b : ℚ) = (a : ℚ) / ((d : Nat) : ℚ) := by rw [hd]; push_cast; rfl
    rw [e, Rat.floor_intCast_div_natCast, ← hd, ← Int.fdiv_eq_ediv _ hb']

/-- In a scope that binds every name the converter uses, with `j` bound to 147064260 and
`gm` to 3: `d2g` gives the year 560, the candidate year of `d2j` is -61, and at the day
before 1 Farvardin -61 the previous-year branch returns the year -62, which `d2j` does not
test against the supported range.  The module as it stands never reaches that branch
(`d2j_unbound`). -/
theorem d2j_bound_previous_year :
    d2j ⟨true, true⟩ ⟨some 147064260, some 3⟩ 1925308 = .ok ⟨-62, 12, 29⟩ := by
  decide

/-- The formula of `g2d` at 20 March 2024 with every quotient and remainder rounded
toward zero instead of toward negative infinity: the result is 2460390. -/
theorem g2d_formula_toward_zero_2024_3_20 :
    Int.tdiv ((2024 + Int.tdiv (3 - 8) 6 + 100100) * 1461) 4
      + Int.tdiv (153 * Int.tmod (3 + 9) 12 + 2) 5 + 20 - 34840408
      - Int.tdiv (Int.tdiv (2024 + 100100 + Int.tdiv (3 - 8) 6) 100 * 3) 4 + 752 = 2460390 := by
  decide

/-! ## Claims -/

/-- C1, at the failing input: the Gregorian round trip does not hold.  With `j` unbound,
as in the module, `d2g(g2d(2024, 3, 20))` throws instead of returning the date; and
whatever the enclosing scope binds `j` and `gm` to, `d2g` cannot return both
20 March 2024 and 21 March 2024 from their day numbers, because its result
does not depend on the day number. -/
theorem d2g_g2d_round_trip_fails :
    d2g Scope.unbound (g2d 2024 3 20) = .error (.referenceError "j") ∧
    ∀ sc : Scope,
      d2g sc (g2d 2024 3 20) ≠ .ok ⟨2024, 3, 20⟩ ∨ d2g sc (g2d 2024 3 21) ≠ .ok ⟨2024, 3, 21⟩ := by
  refine ⟨rfl, fun sc => ?_⟩
  by_cases h : d2g sc (g2d 2024 3 20) = .ok ⟨2024, 3, 20⟩
  · right
    rw [d2g_const sc (g2d 2024 3 21) (g2d 2024 3 20), h]
    decide
  · exact Or.inl h

/-- C2, at the failing input: the Jalaali round trip does not hold.  `j2d(1403, 1, 1)`
throws at its first step, the call of the bare name `jalCal`, and so does `j2d` of every
other date; `d2j` throws at its first step, the call of the bare name `d2g`, at every day
number and whatever `j` and `gm` are bound to.  No date goes in and comes back. -/
theorem d2j_j2d_round_trip_fails :
    j2d Bindings.unbound 1403 1 1 = .error (.referenceError "jalCal") ∧
    (∀ jy jm jd : Int, j2d Bindings.unbound jy jm jd = .error (.referenceError "jalCal")) ∧
    (∀ (sc : Scope) (jdn : Int), d2j Bindings.unbound sc jdn = .error (.referenceError "d2g")) :=
  ⟨rfl, fun _ _ _ => rfl, fun _ _ => rfl⟩

/-- C3, at the failing input: `jalCal(jy)` throws the invalid-year error exactly when
`jy < -61` or `jy >= 3178`, as the claim says, and so at -62 and 3178; but at -61 and 3177,
and at every other year of the supported range, it throws at the head of its loop, on
the assignment to the undeclared `i`, instead of returning a result. -/
theorem jalCal_fails_iff :
    (∀ jy : Int,
      jalCal Bindings.unbound jy = .error (.invalidJalaaliYear jy) ↔ (jy < -61 ∨ jy ≥ 3178)) ∧
    jalCal Bindings.unbound (-62) = .error (.invalidJalaaliYear (-62)) ∧
    jalCal Bindings.unbound 3178 = .error (.invalidJalaaliYear 3178) ∧
    jalCal Bindings.unbound (-61) = .error (.referenceError "i") ∧
    jalCal Bindings.unbound 3177 = .error (.referenceError "i") ∧
    (∀ jy : Int, -61 ≤ jy → jy < 3178 →
      jalCal Bindings.unbound jy = .error (.referenceError "i")) := by
  refine ⟨fun jy => ⟨fun h => ?_, jalCal_of_not_range _ jy⟩, by decide, by decide, by decide,
    by decide, fun jy h1 h2 => jalCal_of_range_not_bound _ rfl jy h1 h2⟩
  by_contra hn
  rw [jalCal_of_range_not_bound _ rfl jy (by omega) (by omega)] at h
  cases h

/-- C4, at the failing input: the length of the Jalaali year 1403 cannot be measured.
`j2d(1404, 1, 1)` and `j2d(1403, 1, 1)` both throw at the call of the bare name `jalCal`,
so their difference is no number, and `isLeapYear(1403)` throws inside `jalCal`. -/
theorem year_length_1403 :
    j2d Bindings.unbound (1403 + 1) 1 1 = .error (.referenceError "jalCal") ∧
    j2d Bindings.unbound 1403 1 1 = .error (.referenceError "jalCal") ∧
    isLeapYear Bindings.unbound 1403 = .error (.referenceError "i") := by
  decide

/-- C5, at the failing input: from 29 February 2024 to 1 March 2024 `g2d` goes
from 2460370 down to 2460005 instead of up by one, and from 31 December 2023 to
1 January 2024 it goes from 2460310 down to 2459946.  The year correction
`div(gm - 8, 6)` is -2 in January, -1 in February and in March, 0 in December. -/
theorem g2d_next_day_fails :
    g2d 2024 2 29 = 2460370 ∧ g2d 2024 3 1 = 2460005 ∧
    g2d 2023 12 31 = 2460310 ∧ g2d 2024 1 1 = 2459946 ∧
    div (1 - 8) 6 = -2 ∧ div (2 - 8) 6 = -1 ∧ div (3 - 8) 6 = -1 ∧ div (12 - 8) 6 = 0 := by
  decide

/-- C6, at the failing input: `g2d` after `d2g` is not the identity on day numbers.
With `j` unbound `d2g(2460024)` throws; whatever the scope binds `j` and `gm`
to, `g2d` of the fields of `d2g` cannot give back both 2460024 and 2460025. -/
theorem g2d_d2g_fails :
    d2g Scope.unbound 2460024 = .error (.referenceError "j") ∧
    ∀ sc : Scope,
      (d2g sc 2460024).map (fun g => g2d g.gy g.gm g.gd) ≠ .ok 2460024 ∨
      (d2g sc 2460025).map (fun g => g2d g.gy g.gm g.gd) ≠ .ok 2460025 := by
  refine ⟨rfl, fun sc => ?_⟩
  by_cases h : (d2g sc 2460024).map (fun g => g2d g.gy g.gm g.gd) = .ok 2460024
  · right
    rw [d2g_const sc 2460025 2460024, h]
    decide
  · exact Or.inl h

/-- C7: two leap years `a < b` of the supported range `[-61, 3178)` (`jalCal` returns
`leap == 0` for both) with no leap year strictly between them are 4 or 5 years apart, in
whatever scope the converter runs.  In the module as it stands the premise is met by no
year, because `jalCal` returns for none (first part). -/
theorem leap_year_spacing :
    (∀ (jy : Int) (r : JalCalResult), jalCal Bindings.unbound jy ≠ .ok r) ∧
    ∀ (bn : Bindings) (a b : Int), -61 ≤ a → a < b → b < 3178 →
      (∃ r, jalCal bn a = .ok r ∧ r.leap = 0) → (∃ r, jalCal bn b = .ok r ∧ r.leap = 0) →
      (∀ c, a < c → c < b → ¬ ∃ r, jalCal bn c = .ok r ∧ r.leap = 0) →
      b - a = 4 ∨ b - a = 5 := by
  refine ⟨jalCal_unbound_ne_ok, ?_⟩
  intro bn a b ha hab hb hla hlb hnone
  have hv : bn.vars = true := by
    obtain ⟨r, hr, _⟩ := hla
    exact (jalCal_ok bn a r hr).1
  obtain ⟨o, rfl⟩ : ∃ o : Nat, a = (o : Int) - 61 := ⟨(a + 61).toNat, by omega⟩
  obtain ⟨p, rfl⟩ : ∃ p : Nat, b = (p : Int) - 61 := ⟨(b + 61).toNat, by omega⟩
  have cast : ∀ k : Nat, ((k : Int) - 61 + 61).toNat = k := fun k => by omega
  have fo : leapNat o = 0 := by
    have := (leap_zero_iff bn hv _ ha (by omega)).1 hla
    rwa [cast] at this
  have fp : leapNat p = 0 := by
    have := (leap_zero_iff bn hv _ (by omega) hb).1 hlb
    rwa [cast] at this
  have hn : ∀ k : Nat, o < k → k < p → leapNat k ≠ 0 := by
    intro k h1 h2 h0
    refine hnone ((k : Int) - 61) (by omega) (by omega) ?_
    refine (leap_zero_iff bn hv _ (by omega) (by omega)).2 ?_
    rwa [cast]
  have hop : o < p := by omega
  have hp : p < 3239 := by omega
  have t0 := (transOK_iff _ _ _).1 (leap_steps o (by omega))
  have f1 : leapNat (o + 1) = 1 := by omega
  have p1 : p ≠ o + 1 := fun e => by rw [e] at fp; omega
  have t1 := (transOK_iff _ _ _).1 (leap_steps (o + 1) (by omega))
  have f2 : leapNat (o + 1 + 1) = 2 := by omega
  have p2 : p ≠ o + 1 + 1 := fun e => by rw [e] at fp; omega
  have t2 := (transOK_iff _ _ _).1 (leap_steps (o + 1 + 1) (by omega))
  have f3 : leapNat (o + 1 + 1 + 1) = 3 := by omega
  have p3 : p ≠ o + 1 + 1 + 1 := fun e => by rw [e] at fp; omega
  have t3 := (transOK_iff _ _ _).1 (leap_steps (o + 1 + 1 + 1) (by omega))
  by_cases p4 : p = o + 1 + 1 + 1 + 1
  · left; omega
  by_cases p5 : p = o + 1 + 1 + 1 + 2
  · right; omega
  exfalso
  have n4 := hn (o + 1 + 1 + 1 + 1) (by omega) (by omega)
  have n5 := hn (o + 1 + 1 + 1 + 2) (by omega) (by omega)
  omega

/-- Witness of `leap_year_spacing`, in a scope that binds the names `jalCal` assigns to:
there 1403 and 1408 have `leap == 0`, no year between them has, and they are five years
apart. -/
theorem leap_year_spacing_witness :
    (∃ r, jalCal ⟨true, true⟩ 1403 = .ok r ∧ r.leap = 0) ∧
    (∃ r, jalCal ⟨true, true⟩ 1408 = .ok r ∧ r.leap = 0) ∧
    ((1408 : Int) - 1403 = 4 ∨ (1408 : Int) - 1403 = 5) :=
  ⟨⟨⟨0, 2024, 20⟩, by decide, rfl⟩, ⟨⟨0, 2029, 20⟩, by decide, rfl⟩,
    leap_year_spacing.2 ⟨true, true⟩ 1403 1408 (by decide) (by decide) (by decide)
      ⟨⟨0, 2024, 20⟩, by decide, rfl⟩ ⟨⟨0, 2029, 20⟩, by decide, rfl⟩
      (fun c h1 h2 => by
        have hc : c = 1404 ∨ c = 1405 ∨ c = 1406 ∨ c = 1407 := by omega
        rcases hc with rfl | rfl | rfl | rfl <;> rw [← isLeapYear_true_iff] <;> decide)⟩

/-- C8, at the failing input: `jalCal(1407)` returns no `leap` field to count years with:
it throws on the assignment to the undeclared `i`, and so does `jalCal` at each of the four
years before 1407. -/
theorem leap_field_1407 :
    jalCal Bindings.unbound 1407 = .error (.referenceError "i") ∧
    ∀ k : Int, 0 ≤ k → k ≤ 4 →
      jalCal Bindings.unbound (1407 - k) = .error (.referenceError "i") := by
  refine ⟨by decide, fun k h1 h2 => ?_⟩
  exact jalCal_of_range_not_bound _ rfl _ (by omega) (by omega)

/-- C9, at the failing input: `jalCal(1403)` throws on the assignment to the undeclared `i`,
and for no year does `jalCal` return a result with `leap` in `0..4` and `gy == jy + 621`. -/
theorem jalCal_leap_range_gy_fails :
    jalCal Bindings.unbound 1403 = .error (.referenceError "i") ∧
    ∀ jy : Int, ¬ ∃ r, jalCal Bindings.unbound jy = .ok r ∧
      0 ≤ r.leap ∧ r.leap ≤ 4 ∧ r.gy = jy + 621 := by
  refine ⟨by decide, ?_⟩
  rintro jy ⟨r, hr, _⟩
  exact jalCal_unbound_ne_ok jy r hr

/-- C10, at the failing input: `daysInMonth(1403, 12)` throws instead of returning 30.
For month 12 of any year, and in any scope, the function tests the leap status of the
year before (here 1402), and that test throws inside `jalCal`.  For the months 1 to 11 it
returns 31 and 30 as the claim says, without a leap test. -/
theorem daysInMonth_1403_12 :
    daysInMonth Bindings.unbound 1403 12 = .error (.referenceError "i") ∧
    (∀ (bn : Bindings) (year : Int), daysInMonth bn year 12 =
      match isLeapYear bn (year - 1) with
      | .error e => .error e
      | .ok true => .ok 30
      | .ok false => .ok 29) ∧
    isLeapYear Bindings.unbound (1403 - 1) = .error (.referenceError "i") ∧
    (∀ (bn : Bindings) (year month : Int), 1 ≤ month → month ≤ 11 →
      daysInMonth bn year month = .ok (if month ≤ 6 then 31 else 30)) := by
  refine ⟨by decide, fun bn year => ?_, by decide, fun bn year month h1 h2 => ?_⟩
  · have h : Int.fdiv 12 12 = 1 := by decide
    simp only [daysInMonth, h]
    rfl
  · have h : Int.fdiv month 12 = 0 := by
      rw [Int.fdiv_eq_ediv _ (by decide)]
      omega
    simp only [daysInMonth, h]
    split_ifs <;> first | rfl | omega

/-- C11, at the failing input: `g2d(2024, 3, 20)` is 2460024, not 2460389, and
`d2j(2460389)` throws at the call of the bare name `d2g`, whatever `j` and `gm` are bound
to, instead of returning 1 Farvardin 1403. -/
theorem fixed_point_2460389_fails :
    g2d 2024 3 20 = 2460024 ∧ g2d 2024 3 20 ≠ 2460389 ∧
    ∀ sc : Scope, d2j Bindings.unbound sc 2460389 = .error (.referenceError "d2g") :=
  ⟨by decide, by decide, fun _ => rfl⟩

/-- C12, at the failing input: `j2d(1403, 1, 1)` throws at the call of the bare name
`jalCal`, so it is not equal to `g2d(2024, 3, 20)`, and `Converter.jalCal(1403)` throws on
the assignment to the undeclared `i` instead of yielding `gy == 2024` and `march == 20`. -/
theorem new_year_1403_fails :
    j2d Bindings.unbound 1403 1 1 = .error (.referenceError "jalCal") ∧
    j2d Bindings.unbound 1403 1 1 ≠ .ok (g2d 2024 3 20) ∧
    jalCal Bindings.unbound 1403 = .error (.referenceError "i") := by
  decide

/-- C13, at the failing input: `isLeapYear(1403)` throws instead of returning true, and
`isLeapYear(1404)` throws instead of returning false.  In every scope `isLeapYear(year)`
is `jalCal(year).leap == 0`, and it throws when `jalCal` does. -/
theorem isLeapYear_1403_1404_fails :
    isLeapYear Bindings.unbound 1403 = .error (.referenceError "i") ∧
    isLeapYear Bindings.unbound 1404 = .error (.referenceError "i") ∧
    ∀ (bn : Bindings) (year : Int),
      isLeapYear bn year = (jalCal bn year).map (fun r => decide (r.leap = 0)) := by
  refine ⟨by decide, by decide, fun bn year => ?_⟩
  unfold isLeapYear
  cases jalCal bn year <;> rfl

/-- C14, at the failing input: 29 Esfand 1402 precedes 1 Farvardin 1403, yet `j2d` gives
neither a day number: both calls throw at the call of the bare name `jalCal`, so no
comparison of day numbers holds. -/
theorem j2d_order_fails :
    j2d Bindings.unbound 1402 12 29 = .error (.referenceError "jalCal") ∧
    j2d Bindings.unbound 1403 1 1 = .error (.referenceError "jalCal") ∧
    ¬ ∃ x y : Int, j2d Bindings.unbound 1402 12 29 = .ok x ∧
      j2d Bindings.unbound 1403 1 1 = .ok y ∧ x < y := by
  refine ⟨rfl, rfl, ?_⟩
  rintro ⟨x, y, hx, _⟩
  cases hx

/-- C15, at the failing input: `d2j(2460024)` throws at the call of the bare name `d2g`
instead of returning a date, as it does at every day number and whatever `j` and `gm` are
bound to; the two ends of the claim's interval, `j2d(1, 1, 1)` and `j2d(3100, 12, 29)`,
throw as well. -/
theorem d2j_not_well_formed :
    (∀ sc : Scope, d2j Bindings.unbound sc 2460024 = .error (.referenceError "d2g")) ∧
    (∀ (sc : Scope) (jdn : Int) (t : JDateTriple), d2j Bindings.unbound sc jdn ≠ .ok t) ∧
    j2d Bindings.unbound 1 1 1 = .error (.referenceError "jalCal") ∧
    j2d Bindings.unbound 3100 12 29 = .error (.referenceError "jalCal") := by
  refine ⟨fun _ => rfl, fun sc jdn t h => ?_, rfl, rfl⟩
  rw [d2j_unbound] at h
  cases h

/-- C16, at the failing input: with `j` unbound `d2g` throws at every day number
instead of returning a date; and with `j` bound to 149203163 and `gm` to 3 it
returns 29 February 2023, which is not a date of the calendar, at every day number. -/
theorem d2g_not_well_formed :
    (∀ jdn : Int, d2g Scope.unbound jdn = .error (.referenceError "j")) ∧
    (∀ jdn : Int, d2g ⟨some 149203163, some 3⟩ jdn = .ok ⟨2023, 2, 29⟩) := by
  refine ⟨fun jdn => rfl, fun jdn => ?_⟩
  rw [d2g_const _ jdn 0]
  decide

/-- C17: for all integers `a` and `b` with `b != 0`, `div(a, b)` is the floor of the
quotient `a / b` and `mod(a, b)` is `a - b * div(a, b)`; for `b > 0` the result of
`mod` lies in `[0, b)`; and `div(-1, 4) == -1`, `mod(-1, 4) == 3`. -/
theorem div_mod_floor (a b : Int) (hb : b ≠ 0) :
    div a b = ⌊(a : ℚ) / (b : ℚ)⌋ ∧ mod a b = a - b * div a b ∧
    (0 < b → 0 ≤ mod a b ∧ mod a b < b) ∧ div (-1) 4 = -1 ∧ mod (-1) 4 = 3 := by
  refine ⟨fdiv_eq_floor a b hb, rfl, fun h => ?_, by decide, by decide⟩
  rw [mod_eq_emod a (le_of_lt h)]
  exact ⟨Int.emod_nonneg a hb, Int.emod_lt_of_pos a h⟩

/-- Witness of `div_mod_floor` at `a = -7`, `b = 2`. -/
theorem div_mod_floor_witness :
    (2 : Int) ≠ 0 ∧
    div (-7) 2 = ⌊((-7 : Int) : ℚ) / ((2 : Int) : ℚ)⌋ ∧ mod (-7) 2 = -7 - 2 * div (-7) 2 ∧
    ((0 : Int) < 2 → 0 ≤ mod (-7) 2 ∧ mod (-7) 2 < 2) ∧ div (-1) 4 = -1 ∧ mod (-1) 4 = 3 :=
  ⟨by decide, div_mod_floor (-7) 2 (by decide)⟩

/-- C18: for every `jy` with `-61 <= jy - 1` and `jy <= 3177`, `jalCal(jy).leap == 1` (the
test `d2j` makes on the candidate year) holds if and only if `jalCal(jy - 1).leap == 0`
(the previous year is a leap year), in whatever scope the converter runs.  In the module
as it stands neither side holds for any year, because `jalCal` returns for none (first
part). -/
theorem leap_one_iff_prev_leap :
    (∀ (jy : Int) (r : JalCalResult), jalCal Bindings.unbound jy ≠ .ok r) ∧
    ∀ (bn : Bindings) (jy : Int), -61 ≤ jy - 1 → jy ≤ 3177 →
      ((∃ r, jalCal bn jy = .ok r ∧ r.leap = 1) ↔
        (∃ r, jalCal bn (jy - 1) = .ok r ∧ r.leap = 0)) := by
  refine ⟨jalCal_unbound_ne_ok, ?_⟩
  intro bn jy h1 h2
  cases hv : bn.vars with
  | false =>
    constructor
    · rintro ⟨r, hr, _⟩
      have := (jalCal_ok bn _ r hr).1
      rw [hv] at this
      cases this
    · rintro ⟨r, hr, _⟩
      have := (jalCal_ok bn _ r hr).1
      rw [hv] at this
      cases this
  | true =>
    obtain ⟨o, rfl⟩ : ∃ o : Nat, jy = (o : Int) + 1 - 61 := ⟨(jy + 60).toNat, by omega⟩
    have t := (transOK_iff _ _ _).1 (leap_steps o (by omega))
    have e1 : ((o : Int) + 1 - 61 + 61).toNat = o + 1 := by omega
    have e2 : ((o : Int) + 1 - 61 - 1 + 61).toNat = o := by omega
    have hcur := jalCal_leap bn ((o : Int) + 1 - 61) _
      (jalCal_of_range bn hv _ (by omega) (by omega))
    have hprev := jalCal_leap bn ((o : Int) + 1 - 61 - 1) _
      (jalCal_of_range bn hv _ (by omega) (by omega))
    rw [e1] at hcur
    rw [e2] at hprev
    constructor
    · rintro ⟨r, hr, hl⟩
      refine ⟨_, jalCal_of_range bn hv _ (by omega) (by omega), ?_⟩
      rw [jalCal_of_range bn hv _ (by omega) (by omega)] at hr
      cases hr
      omega
    · rintro ⟨r, hr, hl⟩
      refine ⟨_, jalCal_of_range bn hv _ (by omega) (by omega), ?_⟩
      rw [jalCal_of_range bn hv _ (by omega) (by omega)] at hr
      cases hr
      omega

/-- Witness of `leap_one_iff_prev_leap`, in a scope that binds the names `jalCal` assigns
to, at the year 1404: there 1404 has `leap == 1` and 1403 has `leap == 0`. -/
theorem leap_one_iff_prev_leap_witness :
    (∃ r, jalCal ⟨true, true⟩ (1404 - 1) = .ok r ∧ r.leap = 0) ∧
    (∃ r, jalCal ⟨true, true⟩ 1404 = .ok r ∧ r.leap = 1) :=
  ⟨⟨⟨0, 2024, 20⟩, by decide, rfl⟩,
    (leap_one_iff_prev_leap.2 ⟨true, true⟩ 1404 (by decide) (by decide)).2
      ⟨⟨0, 2024, 20⟩, by decide, rfl⟩⟩

/-- C19: for every `jy` in `[-61, 3178)`, the value `mod(mod(n + 1, 33) - 1, 4)` of lines 52
and 53 of `jalCal`, with `n` as the bracket scan and the re-basing leave it, is never -1:
the test `leap === -1` of the branch that sets `leap` to 4 never succeeds. -/
theorem leap_clamp_unreachable (jy : Int) (h1 : -61 ≤ jy) (h2 : jy < 3178) :
    leapBeforeClamp jy (scan jy breaks.tail { leapJ := -14, jp := -61, jump := 0 }) ≠ -1 := by
  simp only [leapBeforeClamp, mod_eq_emod _ (show (0:Int) ≤ 4 by decide)]
  omega

/-- Witness of `leap_clamp_unreachable` at the year 1407, the fifth year after the
leap year 1403. -/
theorem leap_clamp_unreachable_witness :
    (-61 : Int) ≤ 1407 ∧ (1407 : Int) < 3178 ∧
    leapBeforeClamp 1407 (scan 1407 breaks.tail { leapJ := -14, jp := -61, jump := 0 }) ≠ -1 :=
  ⟨by decide, by decide, leap_clamp_unreachable 1407 (by decide) (by decide)⟩

/-- C20: `d2j` returns no Jalaali year outside `[-61, 3178)`.  In the module as it stands
it returns no date at all: at every day number, and whatever `j` and `gm` are bound to, it
throws at the call of the bare name `d2g` (first part); so every date it returns has its
year in the range (second part). -/
theorem d2j_year_in_range :
    (∀ (sc : Scope) (jdn : Int), d2j Bindings.unbound sc jdn = .error (.referenceError "d2g")) ∧
    ∀ (sc : Scope) (jdn : Int) (t : JDateTriple),
      d2j Bindings.unbound sc jdn = .ok t → -61 ≤ t.jy ∧ t.jy < 3178 := by
  refine ⟨fun _ _ => rfl, fun sc jdn t h => ?_⟩
  rw [d2j_unbound] at h
  cases h

end JDate
